import Mathlib

/-!
Verification of the similarity-aware caching layer of the MERN AI text
summarizer (server side).  The definitions below are a shallow embedding of
`server/src/utils/smartCache.ts` (text normalizer, content classifier, cache
key builder) and `server/src/services/summary.service.ts` (smart-cache
version: the tiered lookup engine `summarizeText` together with its helpers
`findSimilarCacheEntry` and `findSimilarDatabaseEntry`).

Modelling conventions:
* JavaScript strings are Lean `String`s viewed as their character lists
  (`String.toList`); the text handled by this subsystem is validated ASCII
  text, so the ASCII reading of `\w`, `\s`, `toLowerCase` is the faithful one.
* The Redis fast tier is a finite association list of key/value/ttl triples
  whose list order is the key enumeration order of `KEYS`.
* The MongoDB durable tier is a list of records in insertion order.
* The SHA-256 hex digest (`crypto.createHash('sha256')`, an external library)
  is abstracted as an arbitrary function `hashHex : String → String`; every
  theorem that needs collision-freeness takes it as a hypothesis or picks an
  injective instance in its witness.
* Mongo `$text` search semantics are external to the repository and are
  abstracted as a predicate `textMatch : String → SummaryRecord → Bool`.
* Fallible collaborator calls are modelled in `Except Unit`, with a
  fault-injection record `Faults` saying which collaborator operations throw.
-/

/-! ## Character classes (ASCII readings of the JS regex classes) -/

/-- ASCII `\w`: letters, digits and underscore (the class used by
`/[^\w\s]/g` in `SmartCache.normalizeText`). -/
def isWordChar (c : Char) : Bool :=
  ('a' ≤ c && c ≤ 'z') || ('A' ≤ c && c ≤ 'Z') || ('0' ≤ c && c ≤ '9') || c = '_'

/-- JS `String.prototype.toLowerCase` on one ASCII character. -/
def jsCharLower (c : Char) : Char :=
  if 'A' ≤ c && c ≤ 'Z' then Char.ofNat (c.toNat + 32) else c

/-- Decimal digit test used by the `parseInt` model. -/
def charIsDigit (c : Char) : Bool := '0' ≤ c && c ≤ '9'

/-! ## Generic word-level string machinery -/

/-- Helper for `wordRuns`: accumulates the current run (reversed). -/
def wordRunsAux : List Char → List Char → List String
  | [], acc => if acc.isEmpty then [] else [String.mk acc.reverse]
  | c :: rest, acc =>
    if isWordChar c then wordRunsAux rest (c :: acc)
    else if acc.isEmpty then wordRunsAux rest []
    else String.mk acc.reverse :: wordRunsAux rest []

/-- Maximal runs of `\w` characters.  Applying this to the lowercased input
is exactly the composite of the first four steps of
`SmartCache.normalizeText` (`[^\w\s]`→space, `\s+`→single space, `trim`),
read as the list of words of the intermediate string. -/
def wordRuns (cs : List Char) : List String := wordRunsAux cs []

/-- Helper for `wsTokens`. -/
def wsTokensAux : List Char → List Char → List String
  | [], acc => if acc.isEmpty then [] else [String.mk acc.reverse]
  | c :: rest, acc =>
    if c.isWhitespace then
      if acc.isEmpty then wsTokensAux rest []
      else String.mk acc.reverse :: wsTokensAux rest []
    else wsTokensAux rest (c :: acc)

/-- Maximal runs of non-whitespace characters:
`text.trim().split(/\s+/).filter(w => w.length > 0)`. -/
def wsTokens (cs : List Char) : List String := wsTokensAux cs []

/-- `String.prototype.split(sep)` for a single-character separator, helper. -/
def splitOnCharAux (sep : Char) : List Char → List Char → List (List Char)
  | [], acc => [acc.reverse]
  | c :: rest, acc =>
    if c = sep then acc.reverse :: splitOnCharAux sep rest []
    else splitOnCharAux sep rest (c :: acc)

/-- `String.prototype.split(sep)` for a single-character separator (as used
by `key.split('_')` and `normalizedText.split(' ')`). -/
def splitOnChar (sep : Char) (cs : List Char) : List (List Char) :=
  splitOnCharAux sep cs []

/-- `Array.prototype.join(' ')` of a list of words. -/
def joinSpace : List String → String
  | [] => ""
  | [w] => w
  | w :: rest => w ++ " " ++ joinSpace rest

/-- Boolean list-prefix test (model of a Redis glob pattern `p*`, which on
the patterns issued by this subsystem is plain prefix matching). -/
def listPre : List Char → List Char → Bool
  | [], _ => true
  | _ :: _, [] => false
  | a :: as, b :: bs => if a = b then listPre as bs else false

/-- Contiguous-sublist test, helper for `hasSub`. -/
def listInfix (pat : List Char) : List Char → Bool
  | [] => listPre pat []
  | c :: rest => if listPre pat (c :: rest) then true else listInfix pat rest

/-- JS `t.includes(pat)`: contiguous substring containment. -/
def hasSub (t pat : String) : Bool := listInfix pat.toList t.toList

/-! ## Decimal printing and `parseInt` -/

/-- One decimal digit character. -/
def digitChar (n : Nat) : Char :=
  if n = 0 then '0' else if n = 1 then '1' else if n = 2 then '2'
  else if n = 3 then '3' else if n = 4 then '4' else if n = 5 then '5'
  else if n = 6 then '6' else if n = 7 then '7' else if n = 8 then '8' else '9'

/-- Fuel-driven decimal rendering (structural recursion so that concrete
witnesses reduce in the kernel). -/
def natToDigitsAux : Nat → Nat → List Char
  | 0, _ => []
  | fuel + 1, n =>
    if n < 10 then [digitChar n]
    else natToDigitsAux fuel (n / 10) ++ [digitChar (n % 10)]

/-- Decimal digits of a natural number — the JS rendering of a number in a
template literal such as the `${wordCount}` segment of a cache key. -/
def natToDigits (n : Nat) : List Char := natToDigitsAux (n + 1) n

/-- Decimal rendering as a string. -/
def natStr (n : Nat) : String := String.mk (natToDigits n)

/-- Longest decimal-digit run at the front. -/
def takeDigits (cs : List Char) : List Char := cs.takeWhile charIsDigit

/-- Numeric value of a digit list (most significant first). -/
def digitsVal (cs : List Char) : Nat :=
  cs.foldl (fun a c => 10 * a + (c.toNat - 48)) 0

/-- JS `parseInt` (base 10) on a character list: optional sign, then the
longest digit run; `none` models `NaN` (no digits).  Leading-whitespace
skipping is omitted: the keys this subsystem parses never start with
whitespace. -/
def jsParseIntL (cs : List Char) : Option Int :=
  match cs with
  | [] => none
  | c :: rest =>
    if c = '-' then
      match takeDigits rest with
      | [] => none
      | ds => some (-(digitsVal ds : Int))
    else if c = '+' then
      match takeDigits rest with
      | [] => none
      | ds => some ((digitsVal ds : Int))
    else
      match takeDigits (c :: rest) with
      | [] => none
      | ds => some ((digitsVal ds : Int))

/-! ## SmartCache: normalizer, classifier, word count, key builder -/

/-- Words of the input after lowercasing, punctuation→space collapsing and
trimming (steps 1–4 of `SmartCache.normalizeText`). -/
def tokens1 (text : String) : List String :=
  wordRuns (text.toList.map jsCharLower)

/-- Step 5 of `normalizeText`:
`.replace(/\b(please|kindly|can you|could you)\s+/gi, '')`.
On a single-space-separated word string this removes the words `please` and
`kindly` and the two-word groups `can you` / `could you`, in each case only
when followed by further text (the pattern requires trailing whitespace). -/
def dropPolite : List String → List String
  | [] => []
  | [w] => [w]
  | w :: y :: rest =>
    if w = "please" || w = "kindly" then dropPolite (y :: rest)
    else if (w = "can" || w = "could") && y = "you" && rest ≠ [] then dropPolite rest
    else w :: dropPolite (y :: rest)

/-- Step 6: `.replace(/\b(summarize|summary|summarise)\b/gi, 'summarize')`. -/
def canonSummarize (w : String) : String :=
  if w = "summarize" || w = "summary" || w = "summarise" then "summarize" else w

/-- Step 7: `.replace(/\b(artificial intelligence|ai)\b/gi, 'ai')` — the only
effective rewrite is the two-word group (replacing `ai` by `ai` is the
identity). -/
def collapseAI : List String → List String
  | [] => []
  | [w] => [w]
  | w :: y :: rest =>
    if w = "artificial" && y = "intelligence" then "ai" :: collapseAI rest
    else w :: collapseAI (y :: rest)

/-- Step 8: `.replace(/\b(machine learning|ml)\b/gi, 'ml')`. -/
def collapseML : List String → List String
  | [] => []
  | [w] => [w]
  | w :: y :: rest =>
    if w = "machine" && y = "learning" then "ml" :: collapseML rest
    else w :: collapseML (y :: rest)

/-- Step 9: `.replace(/\b(article|post|piece|content)\b/gi, 'article')`. -/
def canonArticle (w : String) : String :=
  if w = "article" || w = "post" || w = "piece" || w = "content" then "article" else w

/-- `SmartCache.normalizeText`: lowercase, punctuation to spaces, whitespace
collapsed, trim, politeness phrases removed, synonym groups canonicalized,
trim. -/
def normalizeText (text : String) : String :=
  joinSpace (((collapseML (collapseAI ((dropPolite (tokens1 text)).map canonSummarize))).map canonArticle))

/-- `SmartCache.detectContentType`: keyword containment tests in fixed
priority order, first match wins. -/
def detectContentType (normalizedText : String) : String :=
  let t := String.mk (normalizedText.toList.map jsCharLower)
  if hasSub t "email" || hasSub t "message" || hasSub t "correspondence" then "email"
  else if hasSub t "news" || hasSub t "breaking" || hasSub t "report" then "news"
  else if hasSub t "research" || hasSub t "study" || hasSub t "paper" || hasSub t "journal" then "research"
  else if hasSub t "article" || hasSub t "blog" || hasSub t "post" then "article"
  else if hasSub t "document" || hasSub t "file" || hasSub t "pdf" then "document"
  else "general"

/-- `SmartCache.getWordCount`:
`text.trim().split(/\s+/).filter(word => word.length > 0).length`. -/
def getWordCount (text : String) : Nat := (wsTokens text.toList).length

/-- `SmartCache.generateCacheKey`: `contentType_wordCount_digest` where the
digest is of the normalized text.  `hashHex` abstracts the SHA-256 hex
digest. -/
def generateCacheKey (hashHex : String → String) (text : String) : String :=
  let normalized := normalizeText text
  let wordCount := getWordCount normalized
  let contentType := detectContentType normalized
  contentType ++ "_" ++ natStr wordCount ++ "_" ++ hashHex normalized

/-! ## The ±20% similarity band

Both similarity searches compute `Math.floor(wordCount * 0.8)` and
`Math.ceil(wordCount * 1.2)` in IEEE doubles.  The nearest double to `0.8`
is `4/5 + 1/(5·2^52)` and the nearest double to `1.2` is `6/5 − 1/(5·2^52)`,
so for every word count `n` representable as a double the rounded products
stay strictly inside the half-ulp window of the exact rationals `4n/5` and
`6n/5`; hence the JS values are exactly `⌊4n/5⌋` and `⌈6n/5⌉`, which is what
we define here over `Nat`. -/

/-- `Math.floor(n * 0.8)`. -/
def bandMin (n : Nat) : Nat := 4 * n / 5

/-- `Math.ceil(n * 1.2)` (ceiling division). -/
def bandMax (n : Nat) : Nat := (6 * n + 4) / 5

/-- The inclusive band test applied to a candidate word count `w`
(`w >= minWords && w <= maxWords` resp. `$gte`/`$lte`). -/
def natInBand (lo hi w : Nat) : Bool := decide (lo ≤ w ∧ w ≤ hi)

/-- The band test on a `parseInt` result (a JS number, possibly negative). -/
def intInBand (lo hi : Nat) (v : Int) : Bool := decide ((lo : Int) ≤ v ∧ v ≤ (hi : Int))

/-! ## Data model: durable-tier record, fast tier, system state -/

/-- A MongoDB `Summary` document.  Records written by the pre-smart-cache
service carry only `textHash` (a digest of the raw input), `inputText`,
`summary` and `createdAt`; the smart-cache engine additionally fills the
optional fields.  A Mongo equality or range filter on a missing field does
not match, which the `Option` fields model. -/
structure SummaryRecord where
  textHash : String
  normalizedHash : Option String := none
  inputText : String
  normalizedText : Option String := none
  contentType : Option String := none
  wordCount : Option Nat := none
  summary : String
  createdAt : Nat
deriving DecidableEq

/-- Fast tier: key/value/ttl-seconds triples in `KEYS` enumeration order.
Durable tier: records in insertion order.  `now` is the clock used for
`createdAt` defaults on inserts. -/
structure Sys where
  fast : List (String × String × Nat)
  db : List SummaryRecord
  now : Nat
deriving DecidableEq

/-- Which collaborator operations throw (fault injection for the error
handling claims). -/
structure Faults where
  rget : Bool := false
  rset : Bool := false
  rkeys : Bool := false
  dbFindOne : Bool := false
  dbFind : Bool := false
  dbInsert : Bool := false
deriving DecidableEq

/-- All collaborator operations succeed. -/
def noFaults : Faults := {}

/-- External collaborators of the engine: the abstract digest, the Mongo
`$text` search predicate, the OpenAI call (`none` models a thrown error,
`some content` the returned message content) and the fault pattern. -/
structure Env where
  hashHex : String → String
  textMatch : String → SummaryRecord → Bool
  gen : String → Option String
  faults : Faults

/-- Result of one `summarizeText` call: the returned summary, the post-call
tier state, and whether the OpenAI collaborator was invoked. -/
structure Outcome where
  summary : String
  sys : Sys
  genCalled : Bool
deriving DecidableEq

/-! ## Pure tier operations -/

/-- `redisClient.get`. -/
def redisGet : List (String × String × Nat) → String → Option String
  | [], _ => none
  | e :: rest, k => if e.1 = k then some e.2.1 else redisGet rest k

/-- `redisClient.set(k, v, 'EX', ttl)`: overwrite in place or append. -/
def redisSet : List (String × String × Nat) → String → String → Nat → List (String × String × Nat)
  | [], k, v, ttl => [(k, v, ttl)]
  | e :: rest, k, v, ttl => if e.1 = k then (k, v, ttl) :: rest else e :: redisSet rest k v ttl

/-- `redisClient.keys(p ++ "*")`: keys matching a trailing-wildcard glob,
i.e. prefix enumeration in tier order. -/
def redisKeys (fast : List (String × String × Nat)) (p : String) : List String :=
  (fast.filter fun e => listPre p.toList e.1.toList).map (·.1)

/-- `Summary.findOne({ textHash: h })`: first record with the given hash. -/
def dbFindOne : List SummaryRecord → String → Option SummaryRecord
  | [], _ => none
  | r :: rest, h => if r.textHash = h then some r else dbFindOne rest h

/-- Insert one record into a list sorted by `createdAt` descending. -/
def insertByCreatedDesc (r : SummaryRecord) : List SummaryRecord → List SummaryRecord
  | [] => [r]
  | x :: rest =>
    if r.createdAt ≤ x.createdAt then x :: insertByCreatedDesc r rest
    else r :: x :: rest

/-- `.sort({ createdAt: -1 })`. -/
def sortByCreatedDesc (l : List SummaryRecord) : List SummaryRecord :=
  l.foldr insertByCreatedDesc []

/-- The Mongo filter of the first durable similarity query:
`{ contentType: ct, wordCount: { $gte: lo, $lte: hi } }`. -/
def dbCatBandMatch (ct : String) (lo hi : Nat) (r : SummaryRecord) : Bool :=
  decide (r.contentType = some ct) &&
    match r.wordCount with
    | some w => natInBand lo hi w
    | none => false

/-! ## The similarity searches -/

/-- The candidate loop of `findSimilarCacheEntry`: for each key, split on
`'_'`, require at least two segments, `parseInt` the second, return the
first key whose parsed count lies in the band. -/
def findFirstKeyInBand : List String → Nat → Nat → Option String
  | [], _, _ => none
  | k :: rest, lo, hi =>
    match splitOnChar '_' k.toList with
    | _ :: p1 :: _ =>
      match jsParseIntL p1 with
      | some v =>
        if intInBand lo hi v then some k else findFirstKeyInBand rest lo hi
      | none => findFirstKeyInBand rest lo hi
    | _ => findFirstKeyInBand rest lo hi

/-- `findSimilarCacheEntry` (pure part): enumerate keys on the pattern
`contentType_*` and scan for the first word-count match. -/
def findSimilarCacheEntryP (text : String) (fast : List (String × String × Nat)) : Option String :=
  let normalizedText := normalizeText text
  let wordCount := getWordCount normalizedText
  let contentType := detectContentType normalizedText
  findFirstKeyInBand (redisKeys fast (contentType ++ "_")) (bandMin wordCount) (bandMax wordCount)

/-- `findSimilarCacheEntry` with its `try`/`catch`: a thrown `keys`
enumeration is caught and reported as `null`. -/
def findSimilarCacheEntryE (env : Env) (text : String) (s : Sys) : Except Unit (Option String) :=
  if env.faults.rkeys then .ok none
  else .ok (findSimilarCacheEntryP text s.fast)

/-- `findSimilarDatabaseEntry` (pure part): first the category + word-count
band query sorted by `createdAt` descending with `limit(3)`, else the text
search on the first five normalized words with the same band and
`limit(5)`. -/
def findSimilarDatabaseEntryP (tm : String → SummaryRecord → Bool) (text : String)
    (db : List SummaryRecord) : Option SummaryRecord :=
  let normalizedText := normalizeText text
  let wordCount := getWordCount normalizedText
  let contentType := detectContentType normalizedText
  let lo := bandMin wordCount
  let hi := bandMax wordCount
  let similarByCategory := (sortByCreatedDesc (db.filter (dbCatBandMatch contentType lo hi))).take 3
  match similarByCategory with
  | r :: _ => some r
  | [] =>
    let searchTerms := joinSpace (((splitOnChar ' ' normalizedText.toList).map String.mk).take 5)
    let similarSummaries :=
      (db.filter fun r =>
        tm searchTerms r &&
          match r.wordCount with
          | some w => natInBand lo hi w
          | none => false).take 5
    match similarSummaries with
    | r :: _ => some r
    | [] => none

/-- `findSimilarDatabaseEntry` with its `try`/`catch`: a thrown Mongo query
is caught and reported as `null`. -/
def findSimilarDatabaseEntryE (env : Env) (text : String) (s : Sys) : Except Unit (Option SummaryRecord) :=
  if env.faults.dbFind then .ok none
  else .ok (findSimilarDatabaseEntryP env.textMatch text s.db)

/-! ## Fallible collaborator calls of the engine body -/

/-- `redisClient.get` as issued by `summarizeText` (unguarded). -/
def rgetOp (env : Env) (s : Sys) (k : String) : Except Unit (Option String) :=
  if env.faults.rget then .error () else .ok (redisGet s.fast k)

/-- `redisClient.set` as issued by `summarizeText`. -/
def rsetOp (env : Env) (s : Sys) (k v : String) (ttl : Nat) : Except Unit Sys :=
  if env.faults.rset then .error () else .ok { s with fast := redisSet s.fast k v ttl }

/-- `Summary.findOne` as issued by step 3 (unguarded). -/
def dbFindOneOp (env : Env) (s : Sys) (h : String) : Except Unit (Option SummaryRecord) :=
  if env.faults.dbFindOne then .error () else .ok (dbFindOne s.db h)

/-- `Summary.create`. -/
def dbInsertOp (env : Env) (s : Sys) (r : SummaryRecord) : Except Unit Sys :=
  if env.faults.dbInsert then .error () else .ok { s with db := s.db ++ [r] }

/-- JS truthiness of an optional string (`null` and `""` are falsy). -/
def truthy : Option String → Option String
  | some v => if v = "" then none else some v
  | none => none

/-- `Summary: ` + first 100 characters of the input + `...` — the catch-all
fallback of `summarizeText`. -/
def fallbackSummary (text : String) : String :=
  "Summary: " ++ String.mk (text.toList.take 100) ++ "..."

/-- The record created by steps 4 and 5 of `summarizeText`: both blocks
store the digest of the normalized text as `textHash` and `normalizedHash`
and recompute `contentType`/`wordCount` from the normalized text. -/
def mkRecord (env : Env) (text normalizedText summary : String) (now : Nat) : SummaryRecord :=
  let normalizedHash := env.hashHex normalizedText
  { textHash := normalizedHash
    normalizedHash := some normalizedHash
    inputText := text
    normalizedText := some normalizedText
    contentType := some (detectContentType normalizedText)
    wordCount := some (getWordCount normalizedText)
    summary := summary
    createdAt := now }

/-! ## The tiered lookup engine -/

/-- Steps 3–5 of `summarizeText`: durable exact, durable similarity, OpenAI
call with `try`/`catch` fallback. -/
def resolveFrom3 (env : Env) (text : String) (s : Sys) (smartCacheKey normalizedText : String) :
    Except Unit Outcome :=
  let normalizedHash := env.hashHex normalizedText
  match dbFindOneOp env s normalizedHash with
  | .error e => .error e
  | .ok found =>
    match found with
    | some summaryRec =>
      (match rsetOp env s smartCacheKey summaryRec.summary 86400 with
       | .error e => .error e
       | .ok s2 => .ok ⟨summaryRec.summary, s2, false⟩)
    | none =>
      match findSimilarDatabaseEntryE env text s with
      | .error e => .error e
      | .ok simOpt =>
        match simOpt with
        | some simRec =>
          (match rsetOp env s smartCacheKey simRec.summary 86400 with
           | .error e => .error e
           | .ok s2 =>
             match dbInsertOp env s2 (mkRecord env text normalizedText simRec.summary s.now) with
             | .error e => .error e
             | .ok s3 => .ok ⟨simRec.summary, s3, false⟩)
        | none =>
          match env.gen text with
          | none => .ok ⟨fallbackSummary text, s, true⟩
          | some content =>
            let generatedSummary := if content = "" then "No summary generated" else content
            match rsetOp env s smartCacheKey generatedSummary 86400 with
            | .error _ => .ok ⟨fallbackSummary text, s, true⟩
            | .ok s2 =>
              match dbInsertOp env s2 (mkRecord env text normalizedText generatedSummary s.now) with
              | .error _ => .ok ⟨fallbackSummary text, s2, true⟩
              | .ok s3 => .ok ⟨generatedSummary, s3, true⟩

/-- `summaryService.summarizeText`: the five-step tiered lookup protocol.
A `.error` result models an uncaught exception escaping the call. -/
def resolveE (env : Env) (text : String) (s : Sys) : Except Unit Outcome :=
  let smartCacheKey := generateCacheKey env.hashHex text
  let normalizedText := normalizeText text
  match rgetOp env s smartCacheKey with
  | .error e => .error e
  | .ok cached =>
    match truthy cached with
    | some v => .ok ⟨v, s, false⟩
    | none =>
      match findSimilarCacheEntryE env text s with
      | .error e => .error e
      | .ok similarKeyOpt =>
        match similarKeyOpt with
        | some similarKey =>
          if similarKey = "" then resolveFrom3 env text s smartCacheKey normalizedText
          else
            match rgetOp env s similarKey with
            | .error e => .error e
            | .ok sv =>
              match truthy sv with
              | some similarSummary =>
                (match rsetOp env s smartCacheKey similarSummary 86400 with
                 | .error e => .error e
                 | .ok s2 => .ok ⟨similarSummary, s2, false⟩)
              | none => resolveFrom3 env text s smartCacheKey normalizedText
        | none => resolveFrom3 env text s smartCacheKey normalizedText

/-! ## Infrastructure lemmas -/

theorem toList_mk (l : List Char) : (String.mk l).toList = l := rfl

theorem toList_append (a b : String) : (a ++ b).toList = a.toList ++ b.toList := by
  cases a; cases b; rfl

theorem listPre_self_append (p t : List Char) : listPre p (p ++ t) = true := by
  induction p with
  | nil => rfl
  | cons a as ih => simp [listPre, ih]

theorem charIsDigit_digitChar (n : Nat) : charIsDigit (digitChar n) = true := by
  unfold digitChar
  repeat' split
  all_goals decide

theorem digitChar_val (n : Nat) (h : n < 10) : (digitChar n).toNat - 48 = n := by
  interval_cases n <;> rfl

theorem digitChar_ne_underscore (n : Nat) : digitChar n ≠ '_' := by
  unfold digitChar
  repeat' split
  all_goals decide

theorem digitsVal_append_single (ds : List Char) (c : Char) :
    digitsVal (ds ++ [c]) = 10 * digitsVal ds + (c.toNat - 48) := by
  simp [digitsVal, List.foldl_append]

theorem natToDigitsAux_spec :
    ∀ fuel n, n < fuel →
      natToDigitsAux fuel n ≠ [] ∧ (∀ c ∈ natToDigitsAux fuel n, charIsDigit c = true) ∧
        digitsVal (natToDigitsAux fuel n) = n := by
  intro fuel
  induction fuel with
  | zero => intro n h; omega
  | succ fuel ih =>
    intro n h
    by_cases h10 : n < 10
    · refine ⟨by simp [natToDigitsAux, h10], ?_, ?_⟩
      · intro c hc
        simp [natToDigitsAux, h10] at hc
        subst hc
        exact charIsDigit_digitChar n
      · simp [natToDigitsAux, h10, digitsVal, digitChar_val n h10]
    · have hdiv : n / 10 < fuel := by omega
      obtain ⟨hne, hdig, hval⟩ := ih (n / 10) hdiv
      refine ⟨by simp [natToDigitsAux, h10], ?_, ?_⟩
      · intro c hc
        simp [natToDigitsAux, h10] at hc
        rcases hc with hc | hc
        · exact hdig c hc
        · subst hc; exact charIsDigit_digitChar _
      · rw [natToDigitsAux]
        simp only [h10, if_false]
        rw [digitsVal_append_single, hval, digitChar_val (n % 10) (by omega)]
        omega

theorem natToDigits_spec (n : Nat) :
    natToDigits n ≠ [] ∧ (∀ c ∈ natToDigits n, charIsDigit c = true) ∧
      digitsVal (natToDigits n) = n :=
  natToDigitsAux_spec (n + 1) n (Nat.lt_succ_self n)

theorem natToDigits_no_underscore (n : Nat) : ∀ c ∈ natToDigits n, c ≠ '_' := by
  intro c hc he
  have := (natToDigits_spec n).2.1 c hc
  rw [he] at this
  exact absurd this (by decide)

theorem takeDigits_all : ∀ {l : List Char}, (∀ c ∈ l, charIsDigit c = true) → takeDigits l = l
  | [], _ => rfl
  | c :: cs, h => by
    have hc := h c (List.mem_cons_self c cs)
    have ih := takeDigits_all (fun x hx => h x (List.mem_cons_of_mem c hx))
    simp [takeDigits, List.takeWhile_cons, hc] at ih ⊢
    exact ih

theorem jsParseIntL_natToDigits (n : Nat) : jsParseIntL (natToDigits n) = some (n : Int) := by
  obtain ⟨hne, hdig, hval⟩ := natToDigits_spec n
  cases h : natToDigits n with
  | nil => exact absurd h hne
  | cons c cs =>
    rw [h] at hdig hval
    have hc : charIsDigit c = true := hdig c (List.mem_cons_self c cs)
    have hcm : ¬(c = '-') := by
      intro e; rw [e] at hc; exact absurd hc (by decide)
    have hcp : ¬(c = '+') := by
      intro e; rw [e] at hc; exact absurd hc (by decide)
    have htd : takeDigits (c :: cs) = c :: cs := takeDigits_all hdig
    unfold jsParseIntL
    simp [hcm, hcp, htd, hval]

theorem splitOnCharAux_no_sep (sep : Char) :
    ∀ (a acc : List Char), (∀ c ∈ a, c ≠ sep) →
      splitOnCharAux sep a acc = [acc.reverse ++ a]
  | [], acc, _ => by simp [splitOnCharAux]
  | c :: rest, acc, h => by
    have hc : ¬(c = sep) := h c (List.mem_cons_self c rest)
    rw [splitOnCharAux, if_neg hc,
      splitOnCharAux_no_sep sep rest (c :: acc) (fun x hx => h x (List.mem_cons_of_mem c hx))]
    simp

theorem splitOnCharAux_sep (sep : Char) :
    ∀ (a b acc : List Char), (∀ c ∈ a, c ≠ sep) →
      splitOnCharAux sep (a ++ sep :: b) acc = (acc.reverse ++ a) :: splitOnChar sep b
  | [], b, acc, _ => by simp [splitOnCharAux, splitOnChar]
  | c :: rest, b, acc, h => by
    have hc : ¬(c = sep) := h c (List.mem_cons_self c rest)
    rw [List.cons_append, splitOnCharAux, if_neg hc,
      splitOnCharAux_sep sep rest b (c :: acc) (fun x hx => h x (List.mem_cons_of_mem c hx))]
    simp

theorem splitOnChar_sep (sep : Char) (a b : List Char) (h : ∀ c ∈ a, c ≠ sep) :
    splitOnChar sep (a ++ sep :: b) = a :: splitOnChar sep b := by
  rw [splitOnChar, splitOnCharAux_sep sep a b [] h]
  simp

theorem redisGet_redisSet_self (fast : List (String × String × Nat)) (k v : String) (ttl : Nat) :
    redisGet (redisSet fast k v ttl) k = some v := by
  induction fast with
  | nil => simp [redisSet, redisGet]
  | cons e rest ih =>
    by_cases h : e.1 = k
    · simp [redisSet, h, redisGet]
    · simp [redisSet, h, redisGet, ih]

theorem detectContentType_cases (t : String) :
    detectContentType t = "email" ∨ detectContentType t = "news" ∨
      detectContentType t = "research" ∨ detectContentType t = "article" ∨
        detectContentType t = "document" ∨ detectContentType t = "general" := by
  simp only [detectContentType]
  split
  · exact Or.inl rfl
  · split
    · exact Or.inr (Or.inl rfl)
    · split
      · exact Or.inr (Or.inr (Or.inl rfl))
      · split
        · exact Or.inr (Or.inr (Or.inr (Or.inl rfl)))
        · split
          · exact Or.inr (Or.inr (Or.inr (Or.inr (Or.inl rfl))))
          · exact Or.inr (Or.inr (Or.inr (Or.inr (Or.inr rfl))))

theorem detectContentType_no_underscore (t : String) :
    ∀ c ∈ (detectContentType t).toList, c ≠ '_' := by
  rcases detectContentType_cases t with h | h | h | h | h | h <;> rw [h] <;> decide

theorem detectContentType_ne_empty (t : String) : detectContentType t ≠ "" := by
  rcases detectContentType_cases t with h | h | h | h | h | h <;> rw [h] <;> decide

theorem keyParts_build (ct : String) (hct : ∀ c ∈ ct.toList, c ≠ '_') (wc : Nat) (hsh : String) :
    splitOnChar '_' (ct ++ "_" ++ natStr wc ++ "_" ++ hsh).toList =
      ct.toList :: natToDigits wc :: splitOnChar '_' hsh.toList := by
  have h1 : (ct ++ "_" ++ natStr wc ++ "_" ++ hsh).toList =
      ct.toList ++ '_' :: (natToDigits wc ++ '_' :: hsh.toList) := by
    simp [toList_append, natStr, toList_mk]
  rw [h1, splitOnChar_sep '_' ct.toList _ hct,
    splitOnChar_sep '_' (natToDigits wc) _ (natToDigits_no_underscore wc)]

/-- The per-candidate acceptance test of the fast-tier similarity scan,
as a predicate (used to state the claim-4 refinement). -/
def keyQualifies (lo hi : Nat) (k : String) : Bool :=
  match splitOnChar '_' k.toList with
  | _ :: p1 :: _ =>
    match jsParseIntL p1 with
    | some v => intInBand lo hi v
    | none => false
  | _ => false

theorem findFirstKeyInBand_cons (k : String) (rest : List String) (lo hi : Nat) :
    findFirstKeyInBand (k :: rest) lo hi =
      if keyQualifies lo hi k then some k else findFirstKeyInBand rest lo hi := by
  have H : ∀ parts : List (List Char),
      (match parts with
        | _ :: p1 :: _ =>
          match jsParseIntL p1 with
          | some v => if intInBand lo hi v = true then some k else findFirstKeyInBand rest lo hi
          | none => findFirstKeyInBand rest lo hi
        | _ => findFirstKeyInBand rest lo hi) =
        if (match parts with
            | _ :: p1 :: _ =>
              match jsParseIntL p1 with
              | some v => intInBand lo hi v
              | none => false
            | _ => false) = true then some k
        else findFirstKeyInBand rest lo hi := by
    intro parts
    rcases parts with _ | ⟨p0, _ | ⟨p1, ps⟩⟩
    · simp
    · simp
    · have H2 : ∀ o : Option Int,
          (match o with
            | some v => if intInBand lo hi v = true then some k else findFirstKeyInBand rest lo hi
            | none => findFirstKeyInBand rest lo hi) =
            if (match o with
                | some v => intInBand lo hi v
                | none => false) = true then some k
            else findFirstKeyInBand rest lo hi := by
        intro o
        rcases o with _ | v
        · simp
        · by_cases hb : intInBand lo hi v = true
          · simp [hb]
          · simp [hb]
      exact H2 (jsParseIntL p1)
  exact H (splitOnChar '_' k.toList)

theorem findFirstKeyInBand_eq_filter_head (keys : List String) (lo hi : Nat) :
    findFirstKeyInBand keys lo hi = (keys.filter (keyQualifies lo hi)).head? := by
  induction keys with
  | nil => rfl
  | cons k rest ih =>
    rw [findFirstKeyInBand_cons, List.filter_cons]
    by_cases hq : keyQualifies lo hi k = true
    · rw [if_pos hq, if_pos hq, List.head?_cons]
    · rw [if_neg hq, if_neg hq, ih]

theorem findFirstKeyInBand_mem (keys : List String) (lo hi : Nat) (k0 : String)
    (h : findFirstKeyInBand keys lo hi = some k0) : k0 ∈ keys := by
  induction keys with
  | nil => exact absurd h (by simp [findFirstKeyInBand])
  | cons k rest ih =>
    rw [findFirstKeyInBand_cons] at h
    by_cases hq : keyQualifies lo hi k = true
    · rw [if_pos hq] at h
      injection h with h2
      exact h2 ▸ List.mem_cons_self k rest
    · rw [if_neg hq] at h
      exact List.mem_cons_of_mem k (ih h)

theorem intInBand_natCast (lo hi w : Nat) : intInBand lo hi (w : Int) = natInBand lo hi w := by
  unfold intInBand natInBand
  rw [decide_eq_decide]
  constructor
  · rintro ⟨h1, h2⟩; exact ⟨by exact_mod_cast h1, by exact_mod_cast h2⟩
  · rintro ⟨h1, h2⟩; exact ⟨by exact_mod_cast h1, by exact_mod_cast h2⟩

theorem keyQualifies_build (lo hi : Nat) (ct : String) (hct : ∀ c ∈ ct.toList, c ≠ '_')
    (w : Nat) (hsh : String) :
    keyQualifies lo hi (ct ++ "_" ++ natStr w ++ "_" ++ hsh) = natInBand lo hi w := by
  unfold keyQualifies
  rw [keyParts_build ct hct w hsh]
  simp [jsParseIntL_natToDigits, intInBand_natCast]

theorem dbFindOne_finds (db : List SummaryRecord) (h : String) (r : SummaryRecord)
    (hmem : r ∈ db) (hh : r.textHash = h) :
    ∃ r2, dbFindOne db h = some r2 ∧ r2.textHash = h := by
  induction db with
  | nil => cases hmem
  | cons x rest ih =>
    by_cases hx : x.textHash = h
    · exact ⟨x, by simp [dbFindOne, hx], hx⟩
    · rcases List.mem_cons.mp hmem with he | hm
      · exact absurd (he ▸ hh) hx
      · obtain ⟨r2, h1, h2⟩ := ih hm
        exact ⟨r2, by simp [dbFindOne, hx, h1], h2⟩

/-! ## Master execution lemma -/

/-- What one successful engine run guarantees relative to the start state:
the durable tier grows by at most one canonical record, and on the
generation paths the result and state are the prescribed ones. -/
def RunSpec (env : Env) (text : String) (s : Sys) (key ntext : String) (o : Outcome) : Prop :=
  (o.sys.db = s.db ∨
      ∃ sum, o.sys.db = s.db ++ [mkRecord env text ntext sum s.now]) ∧
    (o.genCalled = true → env.gen text = none →
      o.summary = fallbackSummary text ∧ o.sys = s) ∧
    (∀ c, o.genCalled = true → env.gen text = some c →
      o.summary = (if c = "" then "No summary generated" else c) ∧
        o.sys.fast = redisSet s.fast key o.summary 86400 ∧
        o.sys.db = s.db ++ [mkRecord env text ntext o.summary s.now] ∧
        o.sys.now = s.now)

theorem resolveFrom3_total (env : Env) (text : String) (s : Sys) (key ntext : String)
    (h2 : env.faults.rset = false) (h3 : env.faults.dbFindOne = false)
    (h4 : env.faults.dbInsert = false) :
    ∃ o, resolveFrom3 env text s key ntext = .ok o ∧ RunSpec env text s key ntext o := by
  unfold resolveFrom3 RunSpec
  simp only [dbFindOneOp, rsetOp, dbInsertOp, findSimilarDatabaseEntryE, h2, h3, h4,
    Bool.false_eq_true, if_false]
  repeat' split
  all_goals first
    | (refine ⟨_, rfl, Or.inl rfl, ?_, ?_⟩ <;> intros <;> simp_all)
    | (refine ⟨_, rfl, Or.inr ⟨_, rfl⟩, ?_, ?_⟩ <;> intros <;> simp_all)
    | (exfalso
       rename_i heq
       by_cases hb : env.faults.dbFind = true <;> simp [hb] at heq)

theorem resolveE_total (env : Env) (text : String) (s : Sys)
    (h1 : env.faults.rget = false) (h2 : env.faults.rset = false)
    (h3 : env.faults.dbFindOne = false) (h4 : env.faults.dbInsert = false) :
    ∃ o, resolveE env text s = .ok o ∧
      RunSpec env text s (generateCacheKey env.hashHex text) (normalizeText text) o := by
  unfold resolveE
  simp only [rgetOp, rsetOp, findSimilarCacheEntryE, h1, h2, Bool.false_eq_true, if_false]
  repeat' split
  all_goals first
    | exact resolveFrom3_total env text s _ _ h2 h3 h4
    | (refine ⟨_, rfl, Or.inl rfl, ?_, ?_⟩ <;> intros <;> simp_all [RunSpec])
    | (exfalso
       rename_i heq
       by_cases hb : env.faults.rkeys = true <;> simp [hb] at heq)

/-! ## Claim C6: the similarity band -/

theorem bandMin_eq_floor (n : Nat) : bandMin n = ⌊(n : ℚ) * (4 / 5)⌋₊ := by
  have h : (n : ℚ) * (4 / 5) = ((4 * n : ℕ) : ℚ) / ((5 : ℕ) : ℚ) := by push_cast; ring
  rw [h, Nat.floor_div_eq_div]
  rfl

theorem bandMax_eq_ceil (n : Nat) : bandMax n = ⌈(n : ℚ) * (6 / 5)⌉₊ := by
  rcases Nat.eq_zero_or_pos n with h0 | hpos
  · subst h0; simp [bandMax]
  · have hq : bandMax n ≠ 0 := by unfold bandMax; omega
    have hmul : (n : ℚ) * (6 / 5) = ((6 * n : ℕ) : ℚ) / ((5 : ℕ) : ℚ) := by push_cast; ring
    have h5 : (0 : ℚ) < ((5 : ℕ) : ℚ) := by norm_num
    symm
    rw [hmul, Nat.ceil_eq_iff hq]
    constructor
    · rw [lt_div_iff₀ h5]
      have hlt : (bandMax n - 1) * 5 < 6 * n := by unfold bandMax at *; omega
      exact_mod_cast hlt
    · rw [div_le_iff₀ h5]
      have hle : 6 * n ≤ bandMax n * 5 := by unfold bandMax; omega
      exact_mod_cast hle

theorem bandMin_le_bandMax (n : Nat) : bandMin n ≤ bandMax n := by
  unfold bandMin bandMax
  omega

/-- C6: for every query word count `n` the similarity band used by both
similarity searches is the inclusive integer range
`[⌊n*0.8⌋, ⌈n*1.2⌉]`: each endpoint is accepted and each value one unit
outside is rejected, both in the fast-tier key filter (`keyQualifies`,
the per-candidate test of `findSimilarCacheEntry`) and in the durable-tier
range filter (`dbCatBandMatch`). -/
theorem similarity_band_boundaries (n : Nat) :
    bandMin n = ⌊(n : ℚ) * (4 / 5)⌋₊ ∧
    bandMax n = ⌈(n : ℚ) * (6 / 5)⌉₊ ∧
    natInBand (bandMin n) (bandMax n) (bandMin n) = true ∧
    natInBand (bandMin n) (bandMax n) (bandMax n) = true ∧
    (0 < bandMin n → natInBand (bandMin n) (bandMax n) (bandMin n - 1) = false) ∧
    natInBand (bandMin n) (bandMax n) (bandMax n + 1) = false ∧
    (∀ ct : String, (∀ c ∈ ct.toList, c ≠ '_') → ∀ w : Nat, ∀ hsh : String,
      keyQualifies (bandMin n) (bandMax n) (ct ++ "_" ++ natStr w ++ "_" ++ hsh) =
        natInBand (bandMin n) (bandMax n) w) ∧
    (∀ ct : String, ∀ r : SummaryRecord, r.contentType = some ct →
      (r.wordCount = some (bandMin n) ∨ r.wordCount = some (bandMax n)) →
      dbCatBandMatch ct (bandMin n) (bandMax n) r = true) ∧
    (∀ ct : String, ∀ r : SummaryRecord, r.wordCount = some (bandMax n + 1) →
      dbCatBandMatch ct (bandMin n) (bandMax n) r = false) := by
  have hle := bandMin_le_bandMax n
  refine ⟨bandMin_eq_floor n, bandMax_eq_ceil n, ?_, ?_, ?_, ?_, ?_, ?_, ?_⟩
  · simp [natInBand, hle]
  · simp [natInBand, hle]
  · intro hpos
    simp [natInBand]
    omega
  · simp [natInBand]
  · intro ct hct w hsh
    exact keyQualifies_build (bandMin n) (bandMax n) ct hct w hsh
  · intro ct r hcat hwc
    rcases hwc with hwc | hwc <;>
      simp [dbCatBandMatch, hcat, hwc, natInBand, hle]
  · intro ct r hwc
    simp [dbCatBandMatch, hwc, natInBand]

/-- Concrete instance of `similarity_band_boundaries` at `n = 5`
(band `[4, 6]`), with its hypotheses discharged. -/
theorem similarity_band_boundaries_witness :
    (0 < bandMin 5 ∧ natInBand (bandMin 5) (bandMax 5) (bandMin 5 - 1) = false) ∧
      keyQualifies (bandMin 5) (bandMax 5) ("news" ++ "_" ++ natStr 6 ++ "_" ++ "h") =
        natInBand (bandMin 5) (bandMax 5) 6 :=
  ⟨⟨by decide, (similarity_band_boundaries 5).2.2.2.2.1 (by decide)⟩,
    (similarity_band_boundaries 5).2.2.2.2.2.2.1 "news" (by decide) 6 "h"⟩

/-! ## Claim C4: fast-tier similarity -/

theorem listPre_nil_false (a : Char) (as : List Char) : listPre (a :: as) [] = false := rfl

theorem findSimilarCacheEntryP_ne_empty (text : String) (fast : List (String × String × Nat))
    (k : String) (h : findSimilarCacheEntryP text fast = some k) : k ≠ "" := by
  intro hk
  subst hk
  unfold findSimilarCacheEntryP at h
  have hmem := findFirstKeyInBand_mem _ _ _ _ h
  unfold redisKeys at hmem
  rcases List.mem_map.mp hmem with ⟨e, he, hek⟩
  have hpre := (List.mem_filter.mp he).2
  rw [hek] at hpre
  rw [toList_append] at hpre
  rcases hl : (detectContentType (normalizeText text)).toList ++ "_".toList with _ | ⟨c, cs⟩
  · exact absurd hl (by simp)
  · rw [hl] at hpre
    rw [show ("" : String).toList = [] from rfl, listPre_nil_false] at hpre
    exact Bool.false_ne_true hpre

/-- Spec-side description of fast-tier similarity (§4.4 step 2): among the
fast-tier keys matching the query's category-prefix pattern, keep those
whose embedded word count lies in the band around the query's word count,
and take the first in enumeration order — no secondary ranking. -/
def specFastSimilarKey (text : String) (fast : List (String × String × Nat)) : Option String :=
  let n := normalizeText text
  let wc := getWordCount n
  let ct := detectContentType n
  ((redisKeys fast (ct ++ "_")).filter (keyQualifies (bandMin wc) (bandMax wc))).head?

/-- C4: fast-tier similarity enumerates the keys with the query's category
prefix, parses each candidate's embedded word count, keeps the in-band
candidates and returns the first in enumeration order (the refinement
equation with `specFastSimilarKey`); on a hit, `resolve` re-writes the found
value under the exact step-1 key with the 24-hour expiry and returns it. -/
theorem fast_similarity_first_match :
    (∀ text fast, findSimilarCacheEntryP text fast = specFastSimilarKey text fast) ∧
    (∀ env text s k v, env.faults = noFaults →
      truthy (redisGet s.fast (generateCacheKey env.hashHex text)) = none →
      findSimilarCacheEntryP text s.fast = some k →
      truthy (redisGet s.fast k) = some v →
      resolveE env text s =
        .ok ⟨v, { s with fast := redisSet s.fast (generateCacheKey env.hashHex text) v 86400 },
          false⟩) := by
  constructor
  · intro text fast
    unfold findSimilarCacheEntryP specFastSimilarKey
    rw [findFirstKeyInBand_eq_filter_head]
  · intro env text s k v hf h1 h2 h3
    have hk : k ≠ "" := findSimilarCacheEntryP_ne_empty text s.fast k h2
    unfold resolveE
    simp [rgetOp, rsetOp, findSimilarCacheEntryE, hf, noFaults, h1, h2, h3, hk]

/-- Concrete run of `fast_similarity_first_match`: the key `news_3_x` (word
count 3, inside the band `[2, 4]` of the three-word query) is found and its
value is written back under the exact key. -/
theorem fast_similarity_first_match_witness :
    resolveE ⟨fun s => s, fun _ _ => false, fun _ => some "G", noFaults⟩ "breaking stuff now"
        ⟨[("news_3_x", "VAL", 5)], [], 0⟩ =
      .ok ⟨"VAL",
        ⟨redisSet [("news_3_x", "VAL", 5)]
            (generateCacheKey (fun s => s) "breaking stuff now") "VAL" 86400, [], 0⟩,
        false⟩ :=
  fast_similarity_first_match.2 ⟨fun s => s, fun _ _ => false, fun _ => some "G", noFaults⟩
    "breaking stuff now" ⟨[("news_3_x", "VAL", 5)], [], 0⟩ "news_3_x" "VAL" rfl
    (by decide) (by decide) (by decide)

/-! ## Claim C3: durable-tier similarity -/

/-- Spec-side description of durable-tier similarity (§4.4 step 4): first
the equal-category, in-band query ordered by creation time descending taking
the most recent; only if it is empty, the keyword search on the first five
normalized words with the same band, taking its first result. -/
def specDbSimilar (tm : String → SummaryRecord → Bool) (text : String)
    (db : List SummaryRecord) : Option SummaryRecord :=
  let n := normalizeText text
  let wc := getWordCount n
  let ct := detectContentType n
  match (sortByCreatedDesc (db.filter (dbCatBandMatch ct (bandMin wc) (bandMax wc)))).head? with
  | some r => some r
  | none =>
    let searchTerms := joinSpace (((splitOnChar ' ' n.toList).map String.mk).take 5)
    (db.filter fun r =>
      tm searchTerms r &&
        match r.wordCount with
        | some w => natInBand (bandMin wc) (bandMax wc) w
        | none => false).head?

/-- C3: durable-tier similarity is exactly the two-phase search of the spec
(the refinement equation with `specDbSimilar`), and on any hit `resolve`
writes the found summary to the fast tier under the exact key with the
24-hour expiry and appends one brand-new durable record carrying the new
text's own hash, category, word count and normalized text — the existing
records are left untouched. -/
theorem db_similarity_two_phase :
    (∀ tm text db, findSimilarDatabaseEntryP tm text db = specDbSimilar tm text db) ∧
    (∀ env text s r, env.faults = noFaults →
      truthy (redisGet s.fast (generateCacheKey env.hashHex text)) = none →
      findSimilarCacheEntryP text s.fast = none →
      dbFindOne s.db (env.hashHex (normalizeText text)) = none →
      findSimilarDatabaseEntryP env.textMatch text s.db = some r →
      resolveE env text s =
        .ok ⟨r.summary,
          { s with
              fast := redisSet s.fast (generateCacheKey env.hashHex text) r.summary 86400,
              db := s.db ++ [mkRecord env text (normalizeText text) r.summary s.now] },
          false⟩) := by
  constructor
  · intro tm text db
    unfold findSimilarDatabaseEntryP specDbSimilar
    have H : ∀ A B : List SummaryRecord,
        (match A.take 3 with
          | r :: _ => some r
          | [] =>
            match B.take 5 with
            | r :: _ => some r
            | [] => none) =
          (match A.head? with
            | some r => some r
            | none => B.head?) := by
      intro A B
      cases A <;> cases B <;> rfl
    exact H _ _
  · intro env text s r hf h1 h2 h3 h4
    unfold resolveE resolveFrom3
    simp [rgetOp, rsetOp, dbFindOneOp, dbInsertOp, findSimilarCacheEntryE,
      findSimilarDatabaseEntryE, hf, noFaults, h1, h2, h3, h4]

/-- Concrete run of `db_similarity_two_phase`: the two-word query
`good dog` (category `general`, band `[1, 3]`) hits the stored
`general`/word-count-2 record via phase one, reuses its summary, and a new
record with the query's own normalized hash is appended. -/
theorem db_similarity_two_phase_witness :
    resolveE ⟨fun s => s, fun _ _ => false, fun _ => some "G", noFaults⟩ "good dog"
        ⟨[], [⟨"x", none, "seed", none, some "general", some 2, "A sum", 0⟩], 5⟩ =
      .ok ⟨"A sum",
        ⟨redisSet [] (generateCacheKey (fun s => s) "good dog") "A sum" 86400,
          [⟨"x", none, "seed", none, some "general", some 2, "A sum", 0⟩] ++
            [mkRecord ⟨fun s => s, fun _ _ => false, fun _ => some "G", noFaults⟩
              "good dog" (normalizeText "good dog") "A sum" 5],
          5⟩,
        false⟩ :=
  db_similarity_two_phase.2 ⟨fun s => s, fun _ _ => false, fun _ => some "G", noFaults⟩
    "good dog" ⟨[], [⟨"x", none, "seed", none, some "general", some 2, "A sum", 0⟩], 5⟩
    ⟨"x", none, "seed", none, some "general", some 2, "A sum", 0⟩ rfl
    (by decide) (by decide) (by decide) (by decide)

/-! ## Claim C5: near-duplicate convergence -/

theorem redisKeys_singleton (e : String × String × Nat) (p : String)
    (h : listPre p.toList e.1.toList = true) : redisKeys [e] p = [e.1] := by
  unfold redisKeys
  rw [List.filter_cons]
  simp only [String.toList] at h
  simp [h]

theorem generateCacheKey_toList (h : String → String) (text : String) :
    (generateCacheKey h text).toList =
      (detectContentType (normalizeText text) ++ "_").toList ++
        (natToDigits (getWordCount (normalizeText text)) ++
          '_' :: (h (normalizeText text)).toList) := by
  simp [generateCacheKey, toList_append, natStr, toList_mk]

theorem generateCacheKey_ne_empty (h : String → String) (text : String) :
    generateCacheKey h text ≠ "" := by
  intro he
  have hl := generateCacheKey_toList h text
  rw [he] at hl
  rw [show ("" : String).toList = [] from rfl, toList_append] at hl
  simp at hl

theorem keyQualifies_key (lo hi : Nat) (h : String → String) (text : String) :
    keyQualifies lo hi (generateCacheKey h text) =
      natInBand lo hi (getWordCount (normalizeText text)) := by
  rw [show generateCacheKey h text =
      detectContentType (normalizeText text) ++ "_" ++
        natStr (getWordCount (normalizeText text)) ++ "_" ++ h (normalizeText text) from rfl]
  exact keyQualifies_build lo hi _ (detectContentType_no_underscore _) _ _

/-- C5: near-duplicate convergence.  For texts `A` and `B` with the same
content category, `A`'s word count inside the band around `B`'s word count
and no exact hit for `B`, resolving `B` returns `A`'s cached summary through
a similarity step and the generation collaborator is not invoked
(`genCalled = false`): first conjunct — `A`'s summary sits in the fast tier
under `A`'s smart key (step-2 hit); second conjunct — `A`'s summary sits in
the durable tier as the record of `A`'s own total-miss run (step-4 hit). -/
theorem near_duplicate_convergence :
    (∀ (h : String → String) (tm : String → SummaryRecord → Bool) (g : String → Option String)
        (A B sumA : String) (ttl : Nat) (db : List SummaryRecord) (now : Nat),
      detectContentType (normalizeText A) = detectContentType (normalizeText B) →
      natInBand (bandMin (getWordCount (normalizeText B))) (bandMax (getWordCount (normalizeText B)))
          (getWordCount (normalizeText A)) = true →
      generateCacheKey h A ≠ generateCacheKey h B →
      sumA ≠ "" →
      resolveE ⟨h, tm, g, noFaults⟩ B ⟨[(generateCacheKey h A, sumA, ttl)], db, now⟩ =
        .ok ⟨sumA,
          ⟨redisSet [(generateCacheKey h A, sumA, ttl)] (generateCacheKey h B) sumA 86400,
            db, now⟩,
          false⟩) ∧
    (∀ (h : String → String) (tm : String → SummaryRecord → Bool) (g : String → Option String)
        (A B sumA : String) (t0 now : Nat),
      detectContentType (normalizeText A) = detectContentType (normalizeText B) →
      natInBand (bandMin (getWordCount (normalizeText B))) (bandMax (getWordCount (normalizeText B)))
          (getWordCount (normalizeText A)) = true →
      h (normalizeText A) ≠ h (normalizeText B) →
      resolveE ⟨h, tm, g, noFaults⟩ B
          ⟨[], [mkRecord ⟨h, tm, g, noFaults⟩ A (normalizeText A) sumA t0], now⟩ =
        .ok ⟨sumA,
          ⟨redisSet [] (generateCacheKey h B) sumA 86400,
            [mkRecord ⟨h, tm, g, noFaults⟩ A (normalizeText A) sumA t0] ++
              [mkRecord ⟨h, tm, g, noFaults⟩ B (normalizeText B) sumA now],
            now⟩,
          false⟩) := by
  constructor
  · intro h tm g A B sumA ttl db now hcat hband hne hsum
    have hkA : generateCacheKey h A ≠ "" := generateCacheKey_ne_empty h A
    have hstep2 : findSimilarCacheEntryP B [(generateCacheKey h A, sumA, ttl)] =
        some (generateCacheKey h A) := by
      have hpre : listPre (detectContentType (normalizeText B) ++ "_").toList
          (generateCacheKey h A).toList = true := by
        rw [← hcat, generateCacheKey_toList]
        exact listPre_self_append _ _
      have hkeys : redisKeys [(generateCacheKey h A, sumA, ttl)]
          (detectContentType (normalizeText B) ++ "_") = [generateCacheKey h A] :=
        redisKeys_singleton _ _ hpre
      simp only [findSimilarCacheEntryP]
      rw [hkeys, findFirstKeyInBand_cons, keyQualifies_key, hband, if_pos rfl]
    unfold resolveE
    simp [rgetOp, rsetOp, findSimilarCacheEntryE, noFaults, redisGet, hne, truthy,
      hstep2, hkA, hsum, Ne.symm hne]
  · intro h tm g A B sumA t0 now hcat hband hhash
    have h1 : truthy (redisGet ([] : List (String × String × Nat))
        (generateCacheKey h B)) = none := rfl
    have h2 : findSimilarCacheEntryP B ([] : List (String × String × Nat)) = none := rfl
    have h3 : dbFindOne [mkRecord ⟨h, tm, g, noFaults⟩ A (normalizeText A) sumA t0]
        (h (normalizeText B)) = none := by
      simp [dbFindOne, mkRecord, hhash]
    have h4 : findSimilarDatabaseEntryP tm B
        [mkRecord ⟨h, tm, g, noFaults⟩ A (normalizeText A) sumA t0] =
        some (mkRecord ⟨h, tm, g, noFaults⟩ A (normalizeText A) sumA t0) := by
      unfold findSimilarDatabaseEntryP
      have hmatch : dbCatBandMatch (detectContentType (normalizeText B))
          (bandMin (getWordCount (normalizeText B))) (bandMax (getWordCount (normalizeText B)))
          (mkRecord ⟨h, tm, g, noFaults⟩ A (normalizeText A) sumA t0) = true := by
        simp [dbCatBandMatch, mkRecord, hcat, hband]
      simp [List.filter, hmatch, sortByCreatedDesc, insertByCreatedDesc]
    simp only [mkRecord] at h3 h4
    unfold resolveE resolveFrom3
    simp [rgetOp, rsetOp, dbFindOneOp, dbInsertOp, findSimilarCacheEntryE,
      findSimilarDatabaseEntryE, noFaults, h1, h2, h3, h4, mkRecord]

/-- Concrete runs of `near_duplicate_convergence`: `A = "the cat sat"`
(category `general`, word count 3), `B = "a dog ran fast"` (category
`general`, word count 4, band `[3, 5]`), in both the fast-tier and the
durable-tier scenario. -/
theorem near_duplicate_convergence_witness :
    resolveE ⟨fun s => s, fun _ _ => false, fun _ => none, noFaults⟩ "a dog ran fast"
        ⟨[(generateCacheKey (fun s => s) "the cat sat", "SUMA", 99)], [], 0⟩ =
      .ok ⟨"SUMA",
        ⟨redisSet [(generateCacheKey (fun s => s) "the cat sat", "SUMA", 99)]
            (generateCacheKey (fun s => s) "a dog ran fast") "SUMA" 86400, [], 0⟩,
        false⟩ ∧
    resolveE ⟨fun s => s, fun _ _ => false, fun _ => none, noFaults⟩ "a dog ran fast"
        ⟨[], [mkRecord ⟨fun s => s, fun _ _ => false, fun _ => none, noFaults⟩ "the cat sat"
            (normalizeText "the cat sat") "SUMA" 7], 8⟩ =
      .ok ⟨"SUMA",
        ⟨redisSet [] (generateCacheKey (fun s => s) "a dog ran fast") "SUMA" 86400,
          [mkRecord ⟨fun s => s, fun _ _ => false, fun _ => none, noFaults⟩ "the cat sat"
              (normalizeText "the cat sat") "SUMA" 7] ++
            [mkRecord ⟨fun s => s, fun _ _ => false, fun _ => none, noFaults⟩ "a dog ran fast"
              (normalizeText "a dog ran fast") "SUMA" 8],
          8⟩,
        false⟩ :=
  ⟨near_duplicate_convergence.1 (fun s => s) (fun _ _ => false) (fun _ => none)
      "the cat sat" "a dog ran fast" "SUMA" 99 [] 0 (by decide) (by decide) (by decide)
      (by decide),
    near_duplicate_convergence.2 (fun s => s) (fun _ _ => false) (fun _ => none)
      "the cat sat" "a dog ran fast" "SUMA" 7 8 (by decide) (by decide) (by decide)⟩

/-! ## Claim C1: round trip through the total-miss path -/

/-- C1: if a resolve call misses every tier and is answered by the
generation collaborator (`genCalled = true` with a successful generator),
then the returned summary sits in the fast tier under the exact smart key,
and a second resolve call with byte-identical text returns the same summary
at step 1 — state unchanged and the generation collaborator not invoked. -/
theorem round_trip_total_miss (env : Env) (text : String) (s : Sys) (o : Outcome) (c : String)
    (hf : env.faults = noFaults) (hgen : env.gen text = some c)
    (hrun : resolveE env text s = .ok o) (hcall : o.genCalled = true) :
    o.summary = (if c = "" then "No summary generated" else c) ∧
      redisGet o.sys.fast (generateCacheKey env.hashHex text) = some o.summary ∧
      resolveE env text o.sys = .ok ⟨o.summary, o.sys, false⟩ := by
  obtain ⟨o2, he, _, _, hsome⟩ :=
    resolveE_total env text s (by rw [hf]; rfl) (by rw [hf]; rfl) (by rw [hf]; rfl)
      (by rw [hf]; rfl)
  rw [hrun] at he
  injection he with he2
  subst he2
  obtain ⟨hsum, hfast, _, _⟩ := hsome c hcall hgen
  have hget : redisGet o.sys.fast (generateCacheKey env.hashHex text) = some o.summary := by
    rw [hfast]
    exact redisGet_redisSet_self _ _ _ _
  have hne : o.summary ≠ "" := by
    rw [hsum]
    split
    · decide
    · rename_i hc
      intro he3
      exact hc he3
  refine ⟨hsum, hget, ?_⟩
  unfold resolveE
  simp [rgetOp, hf, noFaults, hget, truthy, hne]

/-- Environment for the `round_trip_total_miss` witness: generator returns
`"GEN"`. -/
def envC1 : Env := ⟨fun s => s, fun _ _ => false, fun _ => some "GEN", noFaults⟩

/-- Outcome of the first (total-miss) call of the `round_trip_total_miss`
witness. -/
def oC1 : Outcome :=
  ⟨"GEN",
    ⟨[(generateCacheKey (fun s => s) "hello world", "GEN", 86400)],
      [mkRecord envC1 "hello world" (normalizeText "hello world") "GEN" 0], 0⟩,
    true⟩

/-- Concrete round trip: a total miss on `"hello world"` stores `"GEN"`,
and the second call returns it from step 1 without the generator. -/
theorem round_trip_total_miss_witness :
    resolveE envC1 "hello world" ⟨[], [], 0⟩ = .ok oC1 ∧
      resolveE envC1 "hello world" oC1.sys = .ok ⟨oC1.summary, oC1.sys, false⟩ :=
  ⟨rfl,
    (round_trip_total_miss envC1 "hello world" ⟨[], [], 0⟩ oC1 "GEN" rfl rfl rfl rfl).2.2⟩

/-! ## Claim C2: generation failure yields the deterministic fallback -/

/-- C2: with fault-free tier operations and a throwing generation
collaborator, `resolve` never propagates the failure — it always returns
`.ok`, and whenever the generation call was actually reached the result is
exactly `"Summary: "` + the first 100 characters of the input + `"..."`
with the tier state unchanged. -/
theorem generation_failure_fallback (env : Env) (text : String) (s : Sys)
    (hf : env.faults = noFaults) (hgen : env.gen text = none) :
    ∃ o : Outcome, resolveE env text s = .ok o ∧
      (o.genCalled = true → o.summary = fallbackSummary text ∧ o.sys = s) := by
  obtain ⟨o, he, _, hnone, _⟩ :=
    resolveE_total env text s (by rw [hf]; rfl) (by rw [hf]; rfl) (by rw [hf]; rfl)
      (by rw [hf]; rfl)
  exact ⟨o, he, fun hc => hnone hc hgen⟩

/-- Environment for the `generation_failure_fallback` witness: the
generator always throws. -/
def envC2 : Env := ⟨fun s => s, fun _ _ => false, fun _ => none, noFaults⟩

/-- Concrete instance of `generation_failure_fallback` on empty tiers,
together with the explicitly evaluated fallback result. -/
theorem generation_failure_fallback_witness :
    (∃ o : Outcome, resolveE envC2 "Hello everyone" ⟨[], [], 3⟩ = .ok o ∧
      (o.genCalled = true →
        o.summary = fallbackSummary "Hello everyone" ∧ o.sys = ⟨[], [], 3⟩)) ∧
    resolveE envC2 "Hello everyone" ⟨[], [], 3⟩ =
      .ok ⟨"Summary: Hello everyone...", ⟨[], [], 3⟩, true⟩ :=
  ⟨generation_failure_fallback envC2 "Hello everyone" ⟨[], [], 3⟩ rfl rfl, rfl⟩

/-! ## Claim C7: durable-tier exact lookup and the two hash forms -/

/-- C7 (amended): the durable-tier exact lookup of step 3 finds exactly the
records whose hash field equals the digest of the *normalized* text: if
steps 1–2 miss and `findOne` on the normalized-text digest returns a
record, `resolve` returns its stored summary after the fast-tier
write-back with the 24-hour expiry.  A record keyed by the digest of the
raw input is found only when that digest coincides with the
normalized-text digest. -/
theorem db_exact_normalized_hash (env : Env) (text : String) (s : Sys) (r : SummaryRecord)
    (hf : env.faults = noFaults)
    (h1 : truthy (redisGet s.fast (generateCacheKey env.hashHex text)) = none)
    (h2 : findSimilarCacheEntryP text s.fast = none)
    (h3 : dbFindOne s.db (env.hashHex (normalizeText text)) = some r) :
    resolveE env text s =
      .ok ⟨r.summary,
        { s with fast := redisSet s.fast (generateCacheKey env.hashHex text) r.summary 86400 },
        false⟩ := by
  unfold resolveE resolveFrom3
  simp [rgetOp, rsetOp, dbFindOneOp, findSimilarCacheEntryE, hf, noFaults, h1, h2, h3]

/-- Environment for the C7 theorems: identity digest (injective, standing in
for SHA-256 on distinct inputs), no text-search matches, throwing
generator. -/
def envC7 : Env := ⟨fun s => s, fun _ _ => false, fun _ => none, noFaults⟩

/-- A legacy record stored under the digest of the *raw* text `"Hello"`. -/
def recC7 : SummaryRecord :=
  { textHash := "Hello", inputText := "Hello", summary := "old summary", createdAt := 0 }

/-- C7 counterexample: `recC7` holds the digest of the raw input `"Hello"`,
yet a resolve call with that very text — which reaches step 3, the fast
tier being empty — does not find it: the generation collaborator is invoked
(`genCalled = true`) and the fallback is returned instead of the stored
summary.  The raw-digest hash form is not supported by the step-3 lookup,
which queries only the normalized-text digest (`"hello"` here). -/
theorem raw_hash_not_found_cex :
    recC7.textHash = envC7.hashHex "Hello" ∧
      resolveE envC7 "Hello" ⟨[], [recC7], 1⟩ =
        .ok ⟨"Summary: Hello...", ⟨[], [recC7], 1⟩, true⟩ ∧
      "Summary: Hello..." ≠ recC7.summary :=
  ⟨rfl, rfl, by decide⟩

/-- A record stored under the digest of the *normalized* text of
`"Hello"`. -/
def recC7n : SummaryRecord :=
  { textHash := "hello", inputText := "Hello", summary := "norm summary", createdAt := 0 }

/-- Concrete run of `db_exact_normalized_hash`: the normalized-hash record
is found at step 3 and written back to the fast tier. -/
theorem db_exact_normalized_hash_witness :
    resolveE envC7 "Hello" ⟨[], [recC7n], 1⟩ =
      .ok ⟨recC7n.summary,
        ⟨redisSet [] (generateCacheKey (fun s => s) "Hello") recC7n.summary 86400,
          [recC7n], 1⟩,
        false⟩ :=
  db_exact_normalized_hash envC7 "Hello" ⟨[], [recC7n], 1⟩ recC7n rfl rfl rfl rfl

/-! ## Claim C8: which failures propagate -/

/-- C8 (amended): `resolve` never propagates an exception as long as the
four *unguarded* operation kinds — fast-tier `get`/`set`, durable
`findOne`, durable insert — succeed; the similarity-search queries and the
generation call may fail arbitrarily and the call still returns `.ok`
(worst case the truncated fallback).  Failures of the unguarded operations
do propagate, as the companion counterexample shows. -/
theorem resolve_total_when_unguarded_ok (env : Env) (text : String) (s : Sys)
    (h1 : env.faults.rget = false) (h2 : env.faults.rset = false)
    (h3 : env.faults.dbFindOne = false) (h4 : env.faults.dbInsert = false) :
    ∃ o : Outcome, resolveE env text s = .ok o := by
  obtain ⟨o, he, _⟩ := resolveE_total env text s h1 h2 h3 h4
  exact ⟨o, he⟩

/-- C8 counterexample: with only the fast-tier `get` throwing (the step-1
lookup), `resolve` propagates the exception — refuting "never propagates
for every combination of tier-operation failures". -/
theorem fast_tier_error_propagates_cex :
    resolveE ⟨fun s => s, fun _ _ => false, fun _ => some "G", { rget := true }⟩ "x y"
        ⟨[], [], 0⟩ = .error () := rfl

/-- Concrete instance of `resolve_total_when_unguarded_ok` with both
similarity searches failing and the generator throwing: the call still
returns `.ok`. -/
theorem resolve_total_when_unguarded_ok_witness :
    ∃ o : Outcome,
      resolveE ⟨fun s => s, fun _ _ => false, fun _ => none,
          { rkeys := true, dbFind := true }⟩ "some text" ⟨[], [], 0⟩ = .ok o :=
  resolve_total_when_unguarded_ok
    ⟨fun s => s, fun _ _ => false, fun _ => none, { rkeys := true, dbFind := true }⟩
    "some text" ⟨[], [], 0⟩ rfl rfl rfl rfl

/-! ## Claim C9: similarity-search errors are recovered locally -/

/-- Reference protocol for the C9 continuation property, from the spec's
step list with the two similarity steps elided: fast-tier exact, durable
exact, then generation with the catch-all fallback. -/
def resolveSkipSimilarity (env : Env) (text : String) (s : Sys) : Except Unit Outcome :=
  let smartCacheKey := generateCacheKey env.hashHex text
  let normalizedText := normalizeText text
  let normalizedHash := env.hashHex normalizedText
  match rgetOp env s smartCacheKey with
  | .error e => .error e
  | .ok cached =>
    match truthy cached with
    | some v => .ok ⟨v, s, false⟩
    | none =>
      match dbFindOneOp env s normalizedHash with
      | .error e => .error e
      | .ok found =>
        match found with
        | some summaryRec =>
          (match rsetOp env s smartCacheKey summaryRec.summary 86400 with
           | .error e => .error e
           | .ok s2 => .ok ⟨summaryRec.summary, s2, false⟩)
        | none =>
          match env.gen text with
          | none => .ok ⟨fallbackSummary text, s, true⟩
          | some content =>
            let generatedSummary := if content = "" then "No summary generated" else content
            match rsetOp env s smartCacheKey generatedSummary 86400 with
            | .error _ => .ok ⟨fallbackSummary text, s, true⟩
            | .ok s2 =>
              match dbInsertOp env s2 (mkRecord env text normalizedText generatedSummary s.now) with
              | .error _ => .ok ⟨fallbackSummary text, s2, true⟩
              | .ok s3 => .ok ⟨generatedSummary, s3, true⟩

/-- C9: a tier-query error inside either similarity search is recovered
locally: the failing search reports "no similar entry found" (`.ok none`),
and a resolve call whose two similarity queries both fail behaves exactly
like the protocol with the similarity steps skipped — the error does not
propagate and the lookup continues with the next step. -/
theorem similarity_errors_recovered (h : String → String)
    (tm : String → SummaryRecord → Bool) (g : String → Option String) (f : Faults)
    (text : String) (s : Sys) :
    findSimilarCacheEntryE ⟨h, tm, g, { f with rkeys := true }⟩ text s = .ok none ∧
    findSimilarDatabaseEntryE ⟨h, tm, g, { f with dbFind := true }⟩ text s = .ok none ∧
    resolveE ⟨h, tm, g, { noFaults with rkeys := true, dbFind := true }⟩ text s =
      resolveSkipSimilarity ⟨h, tm, g, noFaults⟩ text s := by
  refine ⟨rfl, rfl, ?_⟩
  unfold resolveE resolveFrom3 resolveSkipSimilarity
  simp [rgetOp, rsetOp, dbFindOneOp, dbInsertOp, findSimilarCacheEntryE,
    findSimilarDatabaseEntryE, noFaults, mkRecord]

/-! ## Claim C10: invariant of engine-inserted records -/

/-- C10: every durable record the engine itself inserts (step-4 similarity
hit or step-5 generation) carries `textHash` equal to the digest of the
normalized text of the current request, identical to its `normalizedHash`,
plus that normalized text, its category and word count; consequently a
later request with byte-identical normalized text keys step 3 with exactly
that digest and the durable exact lookup returns a record bearing it. -/
theorem inserted_records_normalized_hash (env : Env) (text : String) (s : Sys) (o : Outcome)
    (hf : env.faults = noFaults) (hrun : resolveE env text s = .ok o) :
    (∀ r ∈ o.sys.db, r ∈ s.db ∨
      (r.textHash = env.hashHex (normalizeText text) ∧
        r.normalizedHash = some r.textHash ∧
        r.normalizedText = some (normalizeText text) ∧
        r.contentType = some (detectContentType (normalizeText text)) ∧
        r.wordCount = some (getWordCount (normalizeText text)))) ∧
    (∀ (T2 : String) (db2 : List SummaryRecord) (r : SummaryRecord),
      normalizeText T2 = normalizeText text →
      r ∈ db2 → r.textHash = env.hashHex (normalizeText text) →
      ∃ r2, dbFindOne db2 (env.hashHex (normalizeText T2)) = some r2 ∧
        r2.textHash = r.textHash) := by
  constructor
  · obtain ⟨o2, he, hdb, _, _⟩ :=
      resolveE_total env text s (by rw [hf]; rfl) (by rw [hf]; rfl) (by rw [hf]; rfl)
        (by rw [hf]; rfl)
    rw [hrun] at he
    injection he with he2
    subst he2
    intro r hr
    rcases hdb with hdb | ⟨sum, hdb⟩
    · exact Or.inl (hdb ▸ hr)
    · rw [hdb] at hr
      rcases List.mem_append.mp hr with hr | hr
      · exact Or.inl hr
      · right
        have hre : r = mkRecord env text (normalizeText text) sum s.now :=
          List.mem_singleton.mp hr
        subst hre
        exact ⟨rfl, rfl, rfl, rfl, rfl⟩
  · intro T2 db2 r hnorm hmem hhash
    rw [hnorm, hhash]
    exact dbFindOne_finds db2 _ r hmem hhash

/-- Environment for the `inserted_records_normalized_hash` witness. -/
def envC10 : Env := ⟨fun s => s, fun _ _ => false, fun _ => some "S10", noFaults⟩

/-- Outcome of the total-miss run of the `inserted_records_normalized_hash`
witness. -/
def oC10 : Outcome :=
  ⟨"S10",
    ⟨[(generateCacheKey (fun s => s) "nice day", "S10", 86400)],
      [mkRecord envC10 "nice day" (normalizeText "nice day") "S10" 4], 4⟩,
    true⟩

/-- Concrete instance of `inserted_records_normalized_hash`: the one record
inserted by a total-miss run on `"nice day"` (starting from empty tiers)
carries the normalized-text digest as both hash fields. -/
theorem inserted_records_normalized_hash_witness :
    mkRecord envC10 "nice day" (normalizeText "nice day") "S10" 4 ∈ ([] : List SummaryRecord) ∨
      ((mkRecord envC10 "nice day" (normalizeText "nice day") "S10" 4).textHash =
          envC10.hashHex (normalizeText "nice day") ∧
        (mkRecord envC10 "nice day" (normalizeText "nice day") "S10" 4).normalizedHash =
          some (mkRecord envC10 "nice day" (normalizeText "nice day") "S10" 4).textHash ∧
        (mkRecord envC10 "nice day" (normalizeText "nice day") "S10" 4).normalizedText =
          some (normalizeText "nice day") ∧
        (mkRecord envC10 "nice day" (normalizeText "nice day") "S10" 4).contentType =
          some (detectContentType (normalizeText "nice day")) ∧
        (mkRecord envC10 "nice day" (normalizeText "nice day") "S10" 4).wordCount =
          some (getWordCount (normalizeText "nice day"))) :=
  (inserted_records_normalized_hash envC10 "nice day" ⟨[], [], 4⟩ oC10 rfl rfl).1
    (mkRecord envC10 "nice day" (normalizeText "nice day") "S10" 4) (by decide)
